import Mathlib

/-!
# Math API: arithmetic handlers, login, and the request pipeline

A shallow embedding of `main.go` and `auth.go`.

* Go `int` is the 64-bit two's-complement integer of 64-bit targets; the loop
  counter of `factorial` is incremented with explicit wrap-around.
* `*big.Int` is `Int`.
* `float64` is an abstract carrier `F` with the primitives the program uses (`*`,
  `/`, `== 0`) and the test the JSON encoder applies to a float (neither NaN nor
  infinite), bundled in `FloatOps`.
* A handler is a function from a request to `Option Exec`: `none` means that the
  handler never returns (the loop ran out of every finite amount of fuel),
  `some e` carries what was written to the `http.ResponseWriter` together with
  the trace of calls made to the outside world (audit store, logger, metrics).
* Library calls (`json.Decoder.Decode`, `Collection.InsertOne`,
  `Token.SignedString`, `time.Now`) are fields of the environment `Env`.
-/

namespace MathAPI

/-! ## Machine integers -/

/-- Largest value of Go `int` on a 64-bit target (`math.MaxInt64`). -/
def maxInt : Int := 9223372036854775807

/-- Smallest value of Go `int` on a 64-bit target (`math.MinInt64`). -/
def minInt : Int := -9223372036854775808

/-- Two's-complement wrap-around of a mathematical integer into Go `int`. -/
def wrapInt (x : Int) : Int :=
  (x + 9223372036854775808) % 18446744073709551616 - 9223372036854775808

/-! ## float64 -/

/-- The `float64` primitives used by the program: `a * b`, `a / b`, `b == 0`, and
the test `!math.IsInf(x, 0) && !math.IsNaN(x)` that `encoding/json` applies before
it encodes a float. -/
structure FloatOps (F : Type) where
  mul : F → F → F
  div : F → F → F
  eqZero : F → Bool
  isFinite : F → Bool

/-! ## Math operations (`main.go`, lines 92-110) -/

/-- Go `multiply`: `return a * b`. -/
def multiply {F : Type} (ops : FloatOps F) (a b : F) : F :=
  ops.mul a b

/-- Go `divide`: the error `division by zero` when `b == 0`, else `a / b`. -/
def divide {F : Type} (ops : FloatOps F) (a b : F) : Except String F :=
  if ops.eqZero b then .error "division by zero" else .ok (ops.div a b)

/-- The loop `for i := 1; i <= n; i++ { result.Mul(result, big.NewInt(int64(i))) }`
of `factorial`, one iteration per unit of fuel; `i` is a Go `int`, `result` a
`*big.Int`. `none`: the fuel ran out before the loop condition became false. -/
def factorialLoop : Nat → Int → Int → Int → Option Int
  | 0, _, _, _ => none
  | fuel + 1, n, i, result =>
    if i ≤ n then factorialLoop fuel n (wrapInt (i + 1)) (result * i) else some result

/-- Go `factorial`: `result := big.NewInt(1)`, then the loop from `i := 1`. -/
def factorial (fuel : Nat) (n : Int) : Option Int :=
  factorialLoop fuel n 1 1

/-! ## HTTP data model -/

/-- Go `http.StatusOK`. -/
def StatusOK : Nat := 200
/-- Go `http.StatusBadRequest`. -/
def StatusBadRequest : Nat := 400
/-- Go `http.StatusUnauthorized`. -/
def StatusUnauthorized : Nat := 401
/-- Go `http.StatusNotFound`. -/
def StatusNotFound : Nat := 404
/-- Go `http.StatusMethodNotAllowed`. -/
def StatusMethodNotAllowed : Nat := 405
/-- Go `http.StatusInternalServerError`. -/
def StatusInternalServerError : Nat := 500

/-- Values of `interface{}` that the program puts in JSON payloads and audit operands. -/
inductive Value (F : Type) where
  | float (x : F)
  | int (n : Int)
  | str (s : String)
  | null
  deriving DecidableEq

/-- A Go `map[string]...` literal, as its key/value pairs. -/
abbrev Payload (F : Type) := List (String × Value F)

/-- What was written to the `http.ResponseWriter`: the code given to `WriteHeader`
and the JSON document written as the body, `none` when no document was written. The
`Content-Type` header, always `application/json`, is not represented. -/
structure Response (F : Type) where
  status : Nat
  body : Option (Payload F)
  deriving DecidableEq

/-- The document `bson.M{operation, operands, timestamp}` built by `logOperation`. -/
structure OperationRecord (F : Type) where
  operation : String
  operands : List (Value F)
  timestamp : Int
  deriving DecidableEq

/-- Calls made to the outside world while a request is processed. -/
inductive Event (F : Type) where
  /-- a call `operations.InsertOne(ctx, doc)` -/
  | insertOne (doc : OperationRecord F)
  /-- a call `log.Printf("Failed to log operation: %v", err)` -/
  | logPrintf (msg : String)
  /-- a call `MetricsCollector.observe(method, path, status, _)` -/
  | observe (method path : String) (status : Nat)
  /-- a line written by the logging middleware -/
  | requestLogged (method path : String)
  deriving DecidableEq

/-- How the processing of a request ended: a response was written, or it panicked. -/
inductive Outcome (F : Type) where
  | responded (r : Response F)
  | panicked
  deriving DecidableEq

/-- A finished execution: its outcome and the calls made, oldest first. -/
structure Exec (F : Type) where
  outcome : Outcome F
  trace : List (Event F)
  deriving DecidableEq

/-- The parts of `*http.Request` the program reads; `user` is the request-scoped
context value set by authentication. -/
structure Request where
  method : String
  path : String
  authorization : Option String
  body : String
  user : Option String
  deriving DecidableEq

/-- Values stored in `jwt.MapClaims`. -/
inductive ClaimValue where
  | str (s : String)
  | int (n : Int)
  deriving DecidableEq

/-- Go `jwt.MapClaims`, as its key/value pairs. -/
abbrev MapClaims := List (String × ClaimValue)

/-- The claims read back from a parsed token. -/
structure TokenClaims where
  username : String
  exp : Int
  deriving DecidableEq

/-- The libraries and process-wide state the handlers call into. -/
structure Env (F : Type) where
  /-- float64 arithmetic -/
  ops : FloatOps F
  /-- `time.Now()`, in nanoseconds since the Unix epoch -/
  now : Int
  /-- `operations.InsertOne`: `true` when it returns a nil error -/
  insertOne : OperationRecord F → Bool
  /-- `cfg.JWTSecret` -/
  jwtSecret : String
  /-- `token.SignedString(key)` for an HS256 token with the given claims -/
  signedString : MapClaims → String → Option String
  /-- `json.NewDecoder(r.Body).Decode(&req)` into `struct{ A, B float64 }` -/
  decodeAB : String → Option (F × F)
  /-- `json.NewDecoder(r.Body).Decode(&req)` into `struct{ N int }` -/
  decodeN : String → Option Int
  /-- `json.NewDecoder(r.Body).Decode(&creds)` into the credentials struct -/
  decodeCreds : String → Option (String × String)
  /-- parsing of a token string into its claims (JWT library) -/
  parseToken : String → Option TokenClaims
  /-- whether the signature of the token string matches the secret (JWT library) -/
  signatureMatches : String → String → Bool

/-- A Go `http.HandlerFunc`. -/
abbrev Handler (F : Type) := Request → Option (Exec F)

/-- A Go `mux.MiddlewareFunc`. -/
abbrev Middleware (F : Type) := Handler F → Handler F

/-! ## Time -/

/-- Go `time.Hour`, a `time.Duration` in nanoseconds. -/
def Hour : Int := 3600000000000

/-- Go `Time.Add`. -/
def timeAdd (t d : Int) : Int := t + d

/-- Go `Time.Unix`: whole seconds since the epoch. -/
def timeUnix (t : Int) : Int := t / 1000000000

/-! ## Helper functions (`main.go`, lines 159-186) -/

/-- Whether `encoding/json` can encode the value: a float must be neither NaN nor
infinite (`UnsupportedValueError` otherwise); strings, integers and nil always
encode. -/
def Value.encodable {F : Type} (ops : FloatOps F) : Value F → Bool
  | .float x => ops.isFinite x
  | .int _ => true
  | .str _ => true
  | .null => true

/-- Go `json.NewEncoder(w).Encode(payload)`: the document written to the body; when a
value cannot be encoded, `Encode` returns an error and nothing is written. -/
def jsonEncode {F : Type} (ops : FloatOps F) (payload : Payload F) : Option (Payload F) :=
  if payload.all (fun kv => kv.2.encodable ops) then some payload else none

/-- Go `respondWithJSON`: `WriteHeader(code)`, then `Encode(payload)`, whose error is
discarded, so a payload that cannot be encoded leaves the status with an empty
body. -/
def respondWithJSON {F : Type} (ops : FloatOps F) (code : Nat) (payload : Payload F) :
    Response F :=
  ⟨code, jsonEncode ops payload⟩

/-- Go `respondWithError`. -/
def respondWithError {F : Type} (ops : FloatOps F) (code : Nat) (message : String) :
    Response F :=
  respondWithJSON ops code [("error", .str message)]

/-- Go `logOperation`: one `InsertOne`; when it fails, one `log.Printf`. Nothing is
returned to the caller. -/
def logOperation {F : Type} (env : Env F) (operation : String) (operands : List (Value F)) :
    List (Event F) :=
  let doc : OperationRecord F := ⟨operation, operands, env.now⟩
  if env.insertOne doc then [.insertOne doc]
  else [.insertOne doc, .logPrintf "Failed to log operation"]

/-! ## Handlers (`main.go`, lines 112-157) -/

/-- Go `multiplyHandler`. -/
def multiplyHandler {F : Type} (env : Env F) : Handler F := fun r =>
  match env.decodeAB r.body with
  | none => some ⟨.responded (respondWithError env.ops StatusBadRequest "Invalid request"), []⟩
  | some (a, b) =>
    let result := multiply env.ops a b
    some ⟨.responded (respondWithJSON env.ops StatusOK [("result", .float result)]),
      logOperation env "multiply" [.float a, .float b, .float result]⟩

/-- Go `divideHandler`. -/
def divideHandler {F : Type} (env : Env F) : Handler F := fun r =>
  match env.decodeAB r.body with
  | none => some ⟨.responded (respondWithError env.ops StatusBadRequest "Invalid request"), []⟩
  | some (a, b) =>
    match divide env.ops a b with
    | .error err => some ⟨.responded (respondWithError env.ops StatusBadRequest err), []⟩
    | .ok result =>
      some ⟨.responded (respondWithJSON env.ops StatusOK [("result", .float result)]),
        logOperation env "divide" [.float a, .float b, .float result]⟩

/-- Go `(*big.Int).String`: the decimal representation. -/
def bigString (x : Int) : String := toString x

/-- Go `factorialHandler`. -/
def factorialHandler {F : Type} (env : Env F) (fuel : Nat) : Handler F := fun r =>
  match env.decodeN r.body with
  | none => some ⟨.responded (respondWithError env.ops StatusBadRequest "Invalid request"), []⟩
  | some n =>
    if n < 0 then
      some ⟨.responded (respondWithError env.ops StatusBadRequest "n must be non-negative"), []⟩
    else
      match factorial fuel n with
      | none => none
      | some result =>
        some ⟨.responded (respondWithJSON env.ops StatusOK [("result", .str (bigString result))]),
          logOperation env "factorial" [.int n, .null, .str (bigString result)]⟩

/-! ## Login (`auth.go`) -/

/-- The `jwt.MapClaims` literal of `loginHandler`. -/
def loginClaims (now : Int) (username : String) : MapClaims :=
  [("username", .str username), ("exp", .int (timeUnix (timeAdd now (Hour * 24))))]

/-- Go `loginHandler`. -/
def loginHandler {F : Type} (env : Env F) : Handler F := fun r =>
  match env.decodeCreds r.body with
  | none => some ⟨.responded (respondWithError env.ops StatusBadRequest "Invalid request"), []⟩
  | some (username, password) =>
    if username ≠ "admin" ∨ password ≠ "password" then
      some ⟨.responded (respondWithError env.ops StatusUnauthorized "Invalid credentials"), []⟩
    else
      match env.signedString (loginClaims env.now username) env.jwtSecret with
      | none =>
        some ⟨.responded
          (respondWithError env.ops StatusInternalServerError "Failed to generate token"), []⟩
      | some tokenString =>
        some ⟨.responded (respondWithJSON env.ops StatusOK [("token", .str tokenString)]), []⟩

/-! ## Token verification and middleware

`loggingMiddleware`, `metricsMiddleware`, `recoveryMiddleware` and `authMiddleware`
are registered by `main` but defined outside the two source files. `main` is
therefore embedded over an arbitrary quadruple of middleware (`Middlewares`), and
the definitions below give the quadruple described by the specification. -/

/-- Why `verify` rejects a token. -/
inductive VerifyError where
  | invalidSignature
  | expired
  | malformed
  deriving DecidableEq

/-- Modelled from the spec: `TokenService.verify`, absent from the sources. It fails
with `Malformed` when the token cannot be parsed, `InvalidSignature` when the
signature does not match, `Expired` when the current time exceeds the embedded
expiry; on success it returns the embedded username. -/
def verify {F : Type} (env : Env F) (tokenString : String) : Except VerifyError String :=
  match env.parseToken tokenString with
  | none => .error .malformed
  | some claims =>
    if env.signatureMatches tokenString env.jwtSecret then
      if claims.exp < timeUnix env.now then .error .expired else .ok claims.username
    else .error .invalidSignature

/-- Modelled from the spec: extraction of the bearer token from the `Authorization`
header value, absent from the sources: the text after the leading `Bearer `. -/
def bearerToken (header : String) : Option String :=
  if "Bearer ".toList.isPrefixOf header.toList then some (String.mk (header.toList.drop 7))
  else none

/-- Modelled from the spec: `authMiddleware`, absent from the sources. It answers
`401 Unauthorized` without invoking the downstream handler when the header is
missing or malformed or `verify` fails; otherwise it attaches the verified
username to the request and invokes the downstream handler. -/
def authMiddleware {F : Type} (env : Env F) : Middleware F := fun next r =>
  match r.authorization with
  | none => some ⟨.responded (respondWithError env.ops StatusUnauthorized "Unauthorized"), []⟩
  | some header =>
    match bearerToken header with
    | none => some ⟨.responded (respondWithError env.ops StatusUnauthorized "Unauthorized"), []⟩
    | some tokenString =>
      match verify env tokenString with
      | .error _ => some ⟨.responded (respondWithError env.ops StatusUnauthorized "Unauthorized"), []⟩
      | .ok username => next { r with user := some username }

/-- Modelled from the spec: `recoveryMiddleware`, absent from the sources. A failure
during downstream processing is intercepted and converted into a 500 response with
a generic error body; anything else passes through. -/
def recoveryMiddleware {F : Type} : Middleware F := fun next r =>
  match next r with
  | none => none
  | some e =>
    match e.outcome with
    | .panicked =>
      some ⟨.responded
          ⟨StatusInternalServerError, some [("error", .str "Internal Server Error")]⟩,
        e.trace⟩
    | .responded _ => some e

/-- Modelled from the spec: `metricsMiddleware`, absent from the sources. It calls
downstream and, on return, calls `MetricsCollector.observe` with the response
status and the route path (the duration is not represented). A downstream failure
unwinds through it. -/
def metricsMiddleware {F : Type} : Middleware F := fun next r =>
  match next r with
  | none => none
  | some e =>
    match e.outcome with
    | .responded resp => some ⟨e.outcome, e.trace ++ [.observe r.method r.path resp.status]⟩
    | .panicked => some e

/-- Modelled from the spec: `loggingMiddleware`, absent from the sources and not
described by the specification beyond its registration in `main`: it writes one
log line and delegates to the downstream handler. -/
def loggingMiddleware {F : Type} : Middleware F := fun next r =>
  match next r with
  | none => none
  | some e => some ⟨e.outcome, .requestLogged r.method r.path :: e.trace⟩

/-- The four middleware functions that `main` registers, and the handler
`promhttp.Handler()` it mounts on `/metrics`. -/
structure Middlewares (F : Type) where
  loggingMiddleware : Middleware F
  metricsMiddleware : Middleware F
  recoveryMiddleware : Middleware F
  authMiddleware : Middleware F
  promHandler : Handler F

/-- Modelled from the spec: the middleware quadruple described by the specification;
the metrics snapshot handler answers 200 with a plain-text exposition, which is not a
JSON document. -/
def specMiddlewares {F : Type} (env : Env F) : Middlewares F where
  loggingMiddleware := loggingMiddleware
  metricsMiddleware := metricsMiddleware
  recoveryMiddleware := recoveryMiddleware
  authMiddleware := authMiddleware env
  promHandler := fun _ => some ⟨.responded ⟨StatusOK, none⟩, []⟩

/-! ## The router (`gorilla/mux`) -/

/-- A route registered with `HandleFunc(path, h).Methods(m)`; `methods = none` when no
method matcher was added. -/
structure Route (F : Type) where
  path : String
  methods : Option String
  handler : Handler F

/-- A subrouter created with `PathPrefix(p).Subrouter()`. -/
structure Subrouter (F : Type) where
  tpl : String
  middlewares : List (Middleware F)
  routes : List (Route F)

/-- An entry of a router's route list, in registration order. -/
inductive Entry (F : Type) where
  | route (rt : Route F)
  | subrouter (s : Subrouter F)

/-- A `mux.Router`: middlewares in the order of the `Use` calls, entries in
registration order. -/
structure Router (F : Type) where
  middlewares : List (Middleware F)
  entries : List (Entry F)

/-- Result of matching a request against routes. -/
inductive RouteMatch (F : Type) where
  | found (h : Handler F)
  | methodMismatch
  | notFound

/-- Combination of the match of one route with the match of the routes after it:
the first full match wins; a method mismatch is remembered unless a later route
matches. -/
def RouteMatch.orElse {F : Type} (m rest : RouteMatch F) : RouteMatch F :=
  match m with
  | .found h => .found h
  | .methodMismatch =>
    match rest with
    | .found h => .found h
    | _ => .methodMismatch
  | .notFound => rest

/-- Match of a single route: path first, then method. -/
def Route.matchRequest {F : Type} (rt : Route F) (r : Request) : RouteMatch F :=
  if rt.path = r.path then
    match rt.methods with
    | none => .found rt.handler
    | some m => if m = r.method then .found rt.handler else .methodMismatch
  else .notFound

/-- The middleware chain `mux` builds around a matched handler: the middleware
registered first is outermost. -/
def applyMiddlewares {F : Type} (mws : List (Middleware F)) (h : Handler F) : Handler F :=
  mws.foldr (fun mw acc => mw acc) h

/-- Match against the routes of a subrouter. -/
def matchRoutes {F : Type} : List (Route F) → Request → RouteMatch F
  | [], _ => .notFound
  | rt :: rest, r => (rt.matchRequest r).orElse (matchRoutes rest r)

/-- Match of a subrouter: the path prefix, then its routes; a matched handler is
wrapped in the middlewares of the subrouter. -/
def Subrouter.matchRequest {F : Type} (s : Subrouter F) (r : Request) : RouteMatch F :=
  if s.tpl.toList.isPrefixOf r.path.toList then
    match matchRoutes s.routes r with
    | .found h => .found (applyMiddlewares s.middlewares h)
    | .methodMismatch => .methodMismatch
    | .notFound => .notFound
  else .notFound

/-- Match against the entries of a router. -/
def matchEntries {F : Type} : List (Entry F) → Request → RouteMatch F
  | [], _ => .notFound
  | .route rt :: rest, r => (rt.matchRequest r).orElse (matchEntries rest r)
  | .subrouter s :: rest, r => (s.matchRequest r).orElse (matchEntries rest r)

/-- Go `Router.ServeHTTP`: a matched handler runs inside the middlewares of the
router; an unmatched request is answered by the router itself, with a plain-text
body that is not a JSON document. -/
def Router.serveHTTP {F : Type} (rt : Router F) (r : Request) : Option (Exec F) :=
  match matchEntries rt.entries r with
  | .found h => applyMiddlewares rt.middlewares h r
  | .methodMismatch => some ⟨.responded ⟨StatusMethodNotAllowed, none⟩, []⟩
  | .notFound => some ⟨.responded ⟨StatusNotFound, none⟩, []⟩

/-- Go `Router.Use`. -/
def Router.use {F : Type} (rt : Router F) (mw : Middleware F) : Router F :=
  { rt with middlewares := rt.middlewares ++ [mw] }

/-- Go `Router.HandleFunc(path, h).Methods(m)` and `Router.Handle(path, h)`. -/
def Router.handle {F : Type} (rt : Router F) (path : String) (methods : Option String)
    (h : Handler F) : Router F :=
  { rt with entries := rt.entries ++ [.route ⟨path, methods, h⟩] }

/-- Go `Router.Use` on a subrouter. -/
def Subrouter.use {F : Type} (s : Subrouter F) (mw : Middleware F) : Subrouter F :=
  { s with middlewares := s.middlewares ++ [mw] }

/-- Go `Router.HandleFunc(path, h).Methods(m)` on a subrouter. -/
def Subrouter.handle {F : Type} (s : Subrouter F) (path : String) (methods : Option String)
    (h : Handler F) : Subrouter F :=
  { s with routes := s.routes ++ [⟨path, methods, h⟩] }

/-- The subrouter `authRouter` of `main` (lines 79-83). -/
def authRouter {F : Type} (mws : Middlewares F) (env : Env F) (fuel : Nat) : Subrouter F :=
  let s : Subrouter F := ⟨"/", [], []⟩
  let s := s.use mws.authMiddleware
  let s := s.handle "/multiply" (some "POST") (multiplyHandler env)
  let s := s.handle "/divide" (some "POST") (divideHandler env)
  let s := s.handle "/factorial" (some "POST") (factorialHandler env fuel)
  s

/-- The router built by `main` (lines 68-86). The subrouter takes its place in the
route list when it is created, between `/login` and `/metrics`. -/
def mainRouter {F : Type} (mws : Middlewares F) (env : Env F) (fuel : Nat) : Router F :=
  let r : Router F := ⟨[], []⟩
  let r := r.use mws.loggingMiddleware
  let r := r.use mws.metricsMiddleware
  let r := r.use mws.recoveryMiddleware
  let r := r.handle "/login" (some "POST") (loginHandler env)
  let r : Router F := { r with entries := r.entries ++ [.subrouter (authRouter mws env fuel)] }
  let r := r.handle "/metrics" none mws.promHandler
  r

/-! ## Observations on executions -/

/-- The audit documents handed to `InsertOne` during an execution. -/
def auditRecords {F : Type} (e : Exec F) : List (OperationRecord F) :=
  e.trace.filterMap fun ev =>
    match ev with
    | .insertOne doc => some doc
    | _ => none

/-- The status code of the response, if one was written. -/
def Exec.status {F : Type} (e : Exec F) : Option Nat :=
  match e.outcome with
  | .responded resp => some resp.status
  | .panicked => none

/-- The bearer token of a request is missing, malformed, or rejected by `verify`
(which covers a malformed, an expired, and a wrongly signed token). -/
def TokenRejected {F : Type} (env : Env F) (r : Request) : Prop :=
  r.authorization = none ∨
  ∃ header, r.authorization = some header ∧
    (bearerToken header = none ∨
      ∃ tokenString err, bearerToken header = some tokenString ∧
        verify env tokenString = .error err)

/-- An execution either succeeded (200) and handed exactly one document naming the
operation to the audit store, or failed validation (400) and handed it none. -/
def AuditedIffSucceeded {F : Type} (operation : String) (e : Exec F) : Prop :=
  (e.status = some StatusOK ∧ (auditRecords e).map (fun doc => doc.operation) = [operation]) ∨
  (e.status = some StatusBadRequest ∧ auditRecords e = [])

/-! ## Concrete collaborators for running the model -/

/-- Exact rational arithmetic as an interpretation of the float64 primitives. -/
def exactOps : FloatOps Rat where
  mul := fun a b => a * b
  div := fun a b => a / b
  eqZero := fun b => b == 0
  isFinite := fun _ => true

/-- A float64 value up to rounding: a finite value, kept as an exact rational, an
infinity with its sign, or NaN. The sign of zero is not represented. -/
inductive F64 where
  | finite (q : Rat)
  | inf (negative : Bool)
  | nan
  deriving DecidableEq

/-- Smallest magnitude that float64 arithmetic rounds to an infinity:
`2^1024 - 2^970`, half a unit in the last place above `math.MaxFloat64`. -/
def overflowBound : Rat := 2 ^ 1024 - 2 ^ 970

/-- Result of a float64 operation whose exact value is `q`: an infinity as soon as the
magnitude reaches `overflowBound`; below it the exact value is kept (rounding and
underflow are not represented). -/
def F64.ofExact (q : Rat) : F64 :=
  if overflowBound ≤ q then .inf false
  else if q ≤ -overflowBound then .inf true
  else .finite q

/-- IEEE 754 multiplication on `F64`. -/
def F64.mul : F64 → F64 → F64
  | .finite a, .finite b => F64.ofExact (a * b)
  | .finite a, .inf t => if a = 0 then .nan else .inf (decide (a < 0) != t)
  | .inf s, .finite b => if b = 0 then .nan else .inf (s != decide (b < 0))
  | .inf s, .inf t => .inf (s != t)
  | _, _ => .nan

/-- IEEE 754 division on `F64`. -/
def F64.div : F64 → F64 → F64
  | .finite a, .finite b =>
    if b = 0 then (if a = 0 then .nan else .inf (decide (a < 0))) else F64.ofExact (a / b)
  | .finite _, .inf _ => .finite 0
  | .inf s, .finite b => .inf (s != decide (b < 0))
  | _, _ => .nan

/-- The float64 primitives on `F64`: arithmetic that overflows to an infinity as
float64 does. -/
def overflowingOps : FloatOps F64 where
  mul := F64.mul
  div := F64.div
  eqZero := fun b =>
    match b with
    | .finite q => decide (q = 0)
    | _ => false
  isFinite := fun x =>
    match x with
    | .finite _ => true
    | _ => false

/-- An environment over `F64` for running the arithmetic handlers: every body decodes
to the given operands; the store accepts every insert. -/
def floatEnv (ab : Option (F64 × F64)) : Env F64 where
  ops := overflowingOps
  now := 1700000000123456789
  insertOne := fun _ => true
  jwtSecret := "secret"
  signedString := fun claims _ => some ("token-" ++ toString claims.length)
  decodeAB := fun _ => ab
  decodeN := fun _ => none
  decodeCreds := fun _ => none
  parseToken := fun _ => none
  signatureMatches := fun _ _ => true

/-- An environment for running the model: every body decodes to the given
operands, integer and credentials; the store accepts every insert. -/
def demoEnv (ab : Option (Rat × Rat)) (n : Option Int) (creds : Option (String × String)) :
    Env Rat where
  ops := exactOps
  now := 1700000000123456789
  insertOne := fun _ => true
  jwtSecret := "secret"
  signedString := fun claims _ => some ("token-" ++ toString claims.length)
  decodeAB := fun _ => ab
  decodeN := fun _ => n
  decodeCreds := fun _ => creds
  parseToken := fun s => if s = "expired" then some ⟨"admin", 0⟩ else none
  signatureMatches := fun _ _ => true

/-- A stage that fails (panics) after the downstream handler has returned. -/
def failingStage {F : Type} : Middleware F := fun next r =>
  match next r with
  | none => none
  | some e => some ⟨.panicked, e.trace⟩

/-! ## Integer wrap-around and the factorial loop -/

theorem wrapInt_of_inRange (x : Int) (h1 : minInt ≤ x) (h2 : x ≤ maxInt) : wrapInt x = x := by
  unfold wrapInt
  unfold minInt at h1
  unfold maxInt at h2
  omega

theorem wrapInt_le_maxInt (x : Int) : wrapInt x ≤ maxInt := by
  unfold wrapInt maxInt
  omega

/-- Loop invariant: entering the loop with `i = k + 1` and `result = k!`, the loop
ends with `n!` after `n - k` iterations, as long as `n` is below `maxInt`. -/
theorem factorialLoop_exact (n : Nat) (hn : (n : Int) < maxInt) :
    ∀ (d k : Nat), k + d = n → ∀ fuel : Nat, d < fuel →
      factorialLoop fuel n ((k : Int) + 1) (k.factorial : Int) = some (n.factorial : Int) := by
  intro d
  induction d with
  | zero =>
    intro k hk fuel hf
    obtain ⟨f, rfl⟩ : ∃ f, fuel = f + 1 := ⟨fuel - 1, by omega⟩
    simp only [Nat.add_zero] at hk
    subst hk
    simp [factorialLoop]
  | succ d ih =>
    intro k hk fuel hf
    obtain ⟨f, rfl⟩ : ∃ f, fuel = f + 1 := ⟨fuel - 1, by omega⟩
    have hle : (k : Int) + 1 ≤ n := by omega
    have hw : wrapInt ((k : Int) + 1 + 1) = ((k + 1 : Nat) : Int) + 1 := by
      rw [wrapInt_of_inRange] <;> unfold maxInt at * <;> try unfold minInt
      all_goals push_cast
      all_goals omega
    have hr : (k.factorial : Int) * ((k : Int) + 1) = ((k + 1).factorial : Int) := by
      rw [Nat.factorial_succ]; push_cast; ring
    simp only [factorialLoop, hle, if_true, hw, hr]
    exact ih (k + 1) (by omega) f (by omega)

/-- Below `maxInt`, `factorial` returns the exact product `n!` as soon as the fuel
exceeds `n`. -/
theorem factorial_exact_below_maxInt (n : Nat) (hn : (n : Int) < maxInt) (fuel : Nat)
    (hf : n < fuel) : factorial fuel n = some (n.factorial : Int) := by
  have h := factorialLoop_exact n hn n 0 (by omega) fuel hf
  simpa [factorial] using h

/-- The value `factorial(25)`. -/
theorem factorial_25 : factorial 26 25 = some 15511210043330985984000000 := by
  decide

/-- When `n = maxInt` the loop condition `i <= n` holds for every Go `int`. -/
theorem factorialLoop_maxInt_none :
    ∀ (fuel : Nat) (i r : Int), i ≤ maxInt → factorialLoop fuel maxInt i r = none := by
  intro fuel
  induction fuel with
  | zero => intros; rfl
  | succ f ih =>
    intro i r hi
    simp only [factorialLoop, hi, if_true]
    exact ih _ _ (wrapInt_le_maxInt _)

theorem bigString_natCast (m : Nat) : bigString (m : Int) = Nat.repr m := rfl

/-! ## C1: factorial -/

/-- C1 (evaluation at the failing input): `factorial(math.MaxInt64)` never returns.
The loop counter wraps around from `maxInt` to `minInt`, so `i <= n` stays true and
no amount of fuel ends the loop; the claim promises the exact product for every
`n >= 0`. -/
theorem factorial_maxInt_never_returns : ∀ fuel : Nat, factorial fuel maxInt = none := by
  intro fuel
  exact factorialLoop_maxInt_none fuel 1 1 (by unfold maxInt; omega)

/-! ## C2: divide -/

/-- C2: `divide(a, b)` fails with the error `division by zero` when `b == 0`, returns
`a / b` without error when `b != 0`, and so fails exactly when `b == 0`. -/
theorem divide_fails_iff_zero {F : Type} (ops : FloatOps F) (a b : F) :
    (ops.eqZero b = true → divide ops a b = .error "division by zero") ∧
    (ops.eqZero b = false → divide ops a b = .ok (ops.div a b)) ∧
    ((∃ err, divide ops a b = .error err) ↔ ops.eqZero b = true) := by
  unfold divide
  cases h : ops.eqZero b <;> simp

theorem divide_fails_iff_zero_witness :
    divide exactOps 10 0 = .error "division by zero" ∧
    divide exactOps 10 4 = .ok (exactOps.div 10 4) :=
  ⟨(divide_fails_iff_zero exactOps 10 0).1 (by decide),
   (divide_fails_iff_zero exactOps 10 4).2.1 (by decide)⟩

/-! ## C3: factorialHandler -/

/-- A negative `N` is answered with 400 and an error body whatever the fuel, zero
included: the factorial loop is not entered and nothing is sent to the audit store. -/
theorem factorialHandler_negative {F : Type} (env : Env F) (fuel : Nat) (r : Request) (n : Int)
    (hdec : env.decodeN r.body = some n) (hneg : n < 0) :
    factorialHandler env fuel r =
      some ⟨.responded ⟨400, some [("error", .str "n must be non-negative")]⟩, []⟩ := by
  simp [factorialHandler, hdec, hneg, respondWithError,
    respondWithJSON, jsonEncode, Value.encodable, StatusBadRequest]

/-- For `0 <= N < maxInt` the handler answers 200 with the decimal string of `N!`. -/
theorem factorialHandler_ok {F : Type} (env : Env F) (fuel : Nat) (r : Request) (n : Nat)
    (hdec : env.decodeN r.body = some (n : Int)) (hn : (n : Int) < maxInt) (hf : n < fuel) :
    factorialHandler env fuel r =
      some ⟨.responded ⟨200, some [("result", .str (Nat.repr n.factorial))]⟩,
        logOperation env "factorial"
          [.int n, .null, .str (Nat.repr n.factorial)]⟩ := by
  have hnn : ¬ ((n : Int) < 0) := by omega
  simp [factorialHandler, hdec, hnn, factorial_exact_below_maxInt n hn fuel hf,
    bigString_natCast, respondWithJSON, jsonEncode, Value.encodable, StatusOK]

/-- C3 (evaluation at the failing input): when the body decodes to `N = math.MaxInt64`,
the factorial handler never responds, whatever the fuel; the claim promises a 200
response carrying `N!` for every `N >= 0`. -/
theorem factorialHandler_maxInt_never_responds {F : Type} (env : Env F) (fuel : Nat)
    (r : Request) :
    factorialHandler { env with decodeN := fun _ => some maxInt } fuel r = none := by
  have h : ¬ (maxInt < 0) := by unfold maxInt; omega
  simp [factorialHandler, h, factorialLoop_maxInt_none fuel 1 1 (by unfold maxInt; omega),
    factorial]

/-! ## C4: divideHandler -/

/-- The three responses of the divide handler to a decoded request `(A, B)`: 400 with
body exactly `error: division by zero` when `B == 0`; 200 with body `result: A/B`
when `B != 0` and the quotient is finite; 200 with an empty body when `B != 0` and
the quotient is not finite, because the encoder rejects it after the status was
written. -/
theorem divideHandler_responses {F : Type} (env : Env F) (r : Request) (a b : F)
    (hdec : env.decodeAB r.body = some (a, b)) :
    (env.ops.eqZero b = true →
      divideHandler env r =
        some ⟨.responded ⟨400, some [("error", .str "division by zero")]⟩, []⟩) ∧
    (env.ops.eqZero b = false → env.ops.isFinite (env.ops.div a b) = true →
      divideHandler env r =
        some ⟨.responded ⟨200, some [("result", .float (env.ops.div a b))]⟩,
          logOperation env "divide" [.float a, .float b, .float (env.ops.div a b)]⟩) ∧
    (env.ops.eqZero b = false → env.ops.isFinite (env.ops.div a b) = false →
      divideHandler env r =
        some ⟨.responded ⟨200, none⟩,
          logOperation env "divide" [.float a, .float b, .float (env.ops.div a b)]⟩) := by
  refine ⟨?_, ?_, ?_⟩
  · intro hz
    simp [divideHandler, hdec, divide, hz, respondWithError, respondWithJSON, jsonEncode,
      Value.encodable, StatusBadRequest]
  · intro hz hfin
    simp [divideHandler, hdec, divide, hz, hfin, respondWithJSON, jsonEncode,
      Value.encodable, StatusOK]
  · intro hz hfin
    simp [divideHandler, hdec, divide, hz, hfin, respondWithJSON, jsonEncode,
      Value.encodable, StatusOK]

theorem overflowing_quotient :
    F64.div (.finite (10 ^ 308)) (.finite (1 / 10 ^ 308)) = .inf false := by
  have hb : ¬ ((1 : Rat) / 10 ^ 308 = 0) := by norm_num
  have hq : overflowBound ≤ (10 : Rat) ^ 308 / (1 / 10 ^ 308) := by
    unfold overflowBound
    norm_num
  simp only [F64.div, hb, if_false, F64.ofExact, hq, if_true]

/-- C4 (evaluation at the failing input): for the divide request `A = 1e308`,
`B = 1e-308` the divisor is not zero and the quotient overflows to `+Inf`; the handler
records the operation, writes status 200, and the JSON encoder then rejects `+Inf`,
so the body stays empty. The claim promises the body `result: A/B` whenever `B` is
not 0. -/
theorem divideHandler_overflow_empty_body :
    divideHandler (floatEnv (some (.finite (10 ^ 308), .finite (1 / 10 ^ 308))))
        ⟨"POST", "/divide", none, "", none⟩ =
      some ⟨.responded ⟨200, none⟩,
        [.insertOne ⟨"divide",
          [.float (.finite (10 ^ 308)), .float (.finite (1 / 10 ^ 308)), .float (.inf false)],
          1700000000123456789⟩]⟩ := by
  have hb : ¬ ((1 : Rat) / 10 ^ 308 = 0) := by norm_num
  have hq : (floatEnv (some (.finite (10 ^ 308), .finite (1 / 10 ^ 308)))).ops.div
      (.finite (10 ^ 308)) (.finite (1 / 10 ^ 308)) = .inf false := overflowing_quotient
  have hz : (floatEnv (some (.finite (10 ^ 308), .finite (1 / 10 ^ 308)))).ops.eqZero
      (.finite (1 / 10 ^ 308)) = false := decide_eq_false hb
  have hfin : (floatEnv (some (.finite (10 ^ 308), .finite (1 / 10 ^ 308)))).ops.isFinite
      ((floatEnv (some (.finite (10 ^ 308), .finite (1 / 10 ^ 308)))).ops.div
        (.finite (10 ^ 308)) (.finite (1 / 10 ^ 308))) = false := by
    rw [hq]; rfl
  rw [(divideHandler_responses _ ⟨"POST", "/divide", none, "", none⟩ _ _ rfl).2.2 hz hfin, hq]
  rfl

/-! ## C5: loginHandler -/

/-- C5: the login handler answers 400 when the body cannot be decoded, 401 when the
decoded pair is not (`admin`, `password`), and 200 with a `token` body when the pair
is accepted and signing succeeds; a response whose body carries a token is produced
only for the accepted pair. -/
theorem loginHandler_responses {F : Type} (env : Env F) (r : Request) :
    (env.decodeCreds r.body = none →
      loginHandler env r = some ⟨.responded ⟨400, some [("error", .str "Invalid request")]⟩, []⟩) ∧
    (∀ u p, env.decodeCreds r.body = some (u, p) → ¬ (u = "admin" ∧ p = "password") →
      loginHandler env r =
        some ⟨.responded ⟨401, some [("error", .str "Invalid credentials")]⟩, []⟩) ∧
    (∀ u p tok, env.decodeCreds r.body = some (u, p) → u = "admin" ∧ p = "password" →
      env.signedString (loginClaims env.now u) env.jwtSecret = some tok →
      loginHandler env r = some ⟨.responded ⟨200, some [("token", .str tok)]⟩, []⟩) ∧
    (∀ e resp doc tok, loginHandler env r = some e → e.outcome = .responded resp →
      resp.body = some doc → ("token", Value.str tok) ∈ doc →
      env.decodeCreds r.body = some ("admin", "password")) := by
  refine ⟨?_, ?_, ?_, ?_⟩
  · intro h
    simp [loginHandler, h, respondWithError,
      respondWithJSON, jsonEncode, Value.encodable, StatusBadRequest]
  · intro u p h hne
    have hne' : u ≠ "admin" ∨ p ≠ "password" := by
      by_cases hu : u = "admin"
      · exact Or.inr (fun hp => hne ⟨hu, hp⟩)
      · exact Or.inl hu
    simp [loginHandler, h, hne', respondWithError,
      respondWithJSON, jsonEncode, Value.encodable, StatusUnauthorized]
  · intro u p tok h hacc hs
    obtain ⟨hu, hp⟩ := hacc
    subst hu hp
    simp [loginHandler, h, hs, respondWithJSON, jsonEncode, Value.encodable, StatusOK]
  · intro e resp doc tok he hout hbody hmem
    unfold loginHandler at he
    cases hd : env.decodeCreds r.body with
    | none =>
      simp [hd, respondWithError, respondWithJSON, jsonEncode, Value.encodable] at he
      subst he
      simp at hout
      subst hout
      simp at hbody
      subst hbody
      simp at hmem
    | some up =>
      obtain ⟨u, p⟩ := up
      by_cases hacc : u ≠ "admin" ∨ p ≠ "password"
      · simp [hd, hacc, respondWithError, respondWithJSON, jsonEncode, Value.encodable] at he
        subst he
        simp at hout
        subst hout
        simp at hbody
        subst hbody
        simp at hmem
      · have hu : u = "admin" := by
          by_contra hu; exact hacc (Or.inl hu)
        have hp : p = "password" := by
          by_contra hp; exact hacc (Or.inr hp)
        rw [hu, hp]

theorem loginHandler_responses_witness :
    loginHandler (demoEnv none none (some ("admin", "password")))
        ⟨"POST", "/login", none, "", none⟩ =
      some ⟨.responded ⟨200, some [("token", .str "token-2")]⟩, []⟩ ∧
    loginHandler (demoEnv none none (some ("admin", "hunter2")))
        ⟨"POST", "/login", none, "", none⟩ =
      some ⟨.responded ⟨401, some [("error", .str "Invalid credentials")]⟩, []⟩ ∧
    loginHandler (demoEnv none none none) ⟨"POST", "/login", none, "", none⟩ =
      some ⟨.responded ⟨400, some [("error", .str "Invalid request")]⟩, []⟩ :=
  ⟨(loginHandler_responses (demoEnv none none (some ("admin", "password")))
      ⟨"POST", "/login", none, "", none⟩).2.2.1 "admin" "password" "token-2" rfl
      ⟨rfl, rfl⟩ (by decide),
   (loginHandler_responses (demoEnv none none (some ("admin", "hunter2")))
      ⟨"POST", "/login", none, "", none⟩).2.1 "admin" "hunter2" rfl (by decide),
   (loginHandler_responses (demoEnv none none none)
      ⟨"POST", "/login", none, "", none⟩).1 rfl⟩

/-! ## Routing in `main` -/

theorem serveHTTP_multiply {F : Type} (mws : Middlewares F) (env : Env F) (fuel : Nat)
    (r : Request) (hm : r.method = "POST") (hp : r.path = "/multiply") :
    (mainRouter mws env fuel).serveHTTP r =
      mws.loggingMiddleware (mws.metricsMiddleware (mws.recoveryMiddleware
        (mws.authMiddleware (multiplyHandler env)))) r := by
  simp [Router.serveHTTP, mainRouter, authRouter, Router.use, Router.handle, Subrouter.use,
    Subrouter.handle, matchEntries, Route.matchRequest, Subrouter.matchRequest, matchRoutes,
    RouteMatch.orElse, applyMiddlewares, hm, hp]

theorem serveHTTP_divide {F : Type} (mws : Middlewares F) (env : Env F) (fuel : Nat)
    (r : Request) (hm : r.method = "POST") (hp : r.path = "/divide") :
    (mainRouter mws env fuel).serveHTTP r =
      mws.loggingMiddleware (mws.metricsMiddleware (mws.recoveryMiddleware
        (mws.authMiddleware (divideHandler env)))) r := by
  simp [Router.serveHTTP, mainRouter, authRouter, Router.use, Router.handle, Subrouter.use,
    Subrouter.handle, matchEntries, Route.matchRequest, Subrouter.matchRequest, matchRoutes,
    RouteMatch.orElse, applyMiddlewares, hm, hp]

theorem serveHTTP_factorial {F : Type} (mws : Middlewares F) (env : Env F) (fuel : Nat)
    (r : Request) (hm : r.method = "POST") (hp : r.path = "/factorial") :
    (mainRouter mws env fuel).serveHTTP r =
      mws.loggingMiddleware (mws.metricsMiddleware (mws.recoveryMiddleware
        (mws.authMiddleware (factorialHandler env fuel)))) r := by
  simp [Router.serveHTTP, mainRouter, authRouter, Router.use, Router.handle, Subrouter.use,
    Subrouter.handle, matchEntries, Route.matchRequest, Subrouter.matchRequest, matchRoutes,
    RouteMatch.orElse, applyMiddlewares, hm, hp]

theorem serveHTTP_login {F : Type} (mws : Middlewares F) (env : Env F) (fuel : Nat)
    (r : Request) (hm : r.method = "POST") (hp : r.path = "/login") :
    (mainRouter mws env fuel).serveHTTP r =
      mws.loggingMiddleware (mws.metricsMiddleware (mws.recoveryMiddleware
        (loginHandler env))) r := by
  simp [Router.serveHTTP, mainRouter, authRouter, Router.use, Router.handle, Subrouter.use,
    Subrouter.handle, matchEntries, Route.matchRequest, Subrouter.matchRequest, matchRoutes,
    RouteMatch.orElse, applyMiddlewares, hm, hp]

theorem serveHTTP_metrics {F : Type} (mws : Middlewares F) (env : Env F) (fuel : Nat)
    (r : Request) (hp : r.path = "/metrics") :
    (mainRouter mws env fuel).serveHTTP r =
      mws.loggingMiddleware (mws.metricsMiddleware (mws.recoveryMiddleware
        mws.promHandler)) r := by
  simp [Router.serveHTTP, mainRouter, authRouter, Router.use, Router.handle, Subrouter.use,
    Subrouter.handle, matchEntries, Route.matchRequest, Subrouter.matchRequest, matchRoutes,
    RouteMatch.orElse, applyMiddlewares, hp]

/-- A rejected token makes the authentication stage answer 401 by itself, whatever
the downstream handler is. -/
theorem authMiddleware_rejects {F : Type} (env : Env F) (next : Handler F) (r : Request)
    (hrej : TokenRejected env r) :
    authMiddleware env next r =
      some ⟨.responded ⟨401, some [("error", .str "Unauthorized")]⟩, []⟩ := by
  unfold authMiddleware
  rcases hrej with h | ⟨header, h, hb | ⟨tok, err, hb, hv⟩⟩
  · simp [h, respondWithError, respondWithJSON, jsonEncode, Value.encodable, StatusUnauthorized]
  · simp [h, hb, respondWithError, respondWithJSON, jsonEncode, Value.encodable, StatusUnauthorized]
  · simp [h, hb, hv, respondWithError,
    respondWithJSON, jsonEncode, Value.encodable, StatusUnauthorized]

/-- The three outer stages of the specification around a stage that answered 401. -/
theorem outer_stages_of_rejection {F : Type} (inner : Handler F) (r : Request)
    (h : inner r = some ⟨.responded ⟨401, some [("error", .str "Unauthorized")]⟩, []⟩) :
    loggingMiddleware (metricsMiddleware (recoveryMiddleware inner)) r =
      some ⟨.responded ⟨401, some [("error", .str "Unauthorized")]⟩,
        [.requestLogged r.method r.path, .observe r.method r.path 401]⟩ := by
  simp [loggingMiddleware, metricsMiddleware, recoveryMiddleware, h]

/-! ## C6: protected routes reject bad tokens before the handler -/

/-- C6: on a protected route (`POST /multiply`, `/divide`, `/factorial`), a request
whose bearer token is missing, malformed or rejected by verification (expiry
included) is answered 401 by the pipeline of `main`; the execution contains the log
line and the metrics observation only, so no audit document is sent, and the same
execution results whatever handler sits behind the authentication stage: the route
handler is not invoked. -/
theorem protected_route_rejects_before_handler {F : Type} (env : Env F) (fuel : Nat)
    (r : Request) (hm : r.method = "POST")
    (hp : r.path = "/multiply" ∨ r.path = "/divide" ∨ r.path = "/factorial")
    (hrej : TokenRejected env r) :
    (mainRouter (specMiddlewares env) env fuel).serveHTTP r =
      some ⟨.responded ⟨401, some [("error", .str "Unauthorized")]⟩,
        [.requestLogged r.method r.path, .observe r.method r.path 401]⟩ ∧
    (∀ e, (mainRouter (specMiddlewares env) env fuel).serveHTTP r = some e →
      e.status = some 401 ∧ auditRecords e = []) ∧
    (∀ h : Handler F,
      loggingMiddleware (metricsMiddleware (recoveryMiddleware (authMiddleware env h))) r =
        (mainRouter (specMiddlewares env) env fuel).serveHTTP r) := by
  have key : ∀ h : Handler F,
      loggingMiddleware (metricsMiddleware (recoveryMiddleware (authMiddleware env h))) r =
        some ⟨.responded ⟨401, some [("error", .str "Unauthorized")]⟩,
          [.requestLogged r.method r.path, .observe r.method r.path 401]⟩ :=
    fun h => outer_stages_of_rejection _ r (authMiddleware_rejects env h r hrej)
  have hserve : (mainRouter (specMiddlewares env) env fuel).serveHTTP r =
      some ⟨.responded ⟨401, some [("error", .str "Unauthorized")]⟩,
        [.requestLogged r.method r.path, .observe r.method r.path 401]⟩ := by
    rcases hp with hp | hp | hp
    · rw [serveHTTP_multiply _ env fuel r hm hp]; exact key _
    · rw [serveHTTP_divide _ env fuel r hm hp]; exact key _
    · rw [serveHTTP_factorial _ env fuel r hm hp]; exact key _
  refine ⟨hserve, ?_, ?_⟩
  · intro e he
    rw [hserve] at he
    cases he
    simp [Exec.status, auditRecords]
  · intro h
    rw [hserve]; exact key h

theorem protected_route_rejects_before_handler_witness :
    (mainRouter (specMiddlewares (demoEnv (some (3, 4)) none none))
        (demoEnv (some (3, 4)) none none) 0).serveHTTP
        ⟨"POST", "/multiply", some "Bearer expired", "", none⟩ =
      some ⟨.responded ⟨401, some [("error", .str "Unauthorized")]⟩,
        [.requestLogged "POST" "/multiply", .observe "POST" "/multiply" 401]⟩ :=
  (protected_route_rejects_before_handler (demoEnv (some (3, 4)) none none) 0
    ⟨"POST", "/multiply", some "Bearer expired", "", none⟩ rfl (Or.inl rfl)
    (Or.inr ⟨"Bearer expired", rfl, Or.inr ⟨"expired", .expired, by decide, by rfl⟩⟩)).1

/-! ## C7: order of the middleware chain -/

/-- C7 (counterexample): with a metrics stage that fails, the pipeline built by
`main` ends in a panic on `POST /multiply`: Recovery is registered after Metrics and
sits inside it, so the failure is not intercepted. In the order the claim gives
(Recovery outermost) the same stages would have produced a 500 response. -/
theorem metrics_failure_escapes_recovery :
    ((mainRouter
        { specMiddlewares (demoEnv (some (3, 4)) none none) with
          metricsMiddleware := failingStage }
        (demoEnv (some (3, 4)) none none) 0).serveHTTP
        ⟨"POST", "/multiply", none, "", none⟩).map Exec.outcome = some .panicked ∧
    (recoveryMiddleware (failingStage
        (authMiddleware (demoEnv (some (3, 4)) none none)
          (multiplyHandler (demoEnv (some (3, 4)) none none))))
        ⟨"POST", "/multiply", none, "", none⟩).map Exec.status = some (some 500) := by
  constructor <;> decide

/-- C7 (amended): the chain built by `main` runs, for every request matched by the
route table, in the order Logging, Metrics, Recovery, then Auth (protected routes
only), then the handler; with the Recovery stage of the specification, a failure of
the Auth stage or of the handler is intercepted and answered 500, and what Recovery
hands to the Metrics stage is never a failure. -/
theorem main_chain_order_and_recovery {F : Type} (mws : Middlewares F) (env : Env F)
    (fuel : Nat) (r : Request) :
    (r.method = "POST" → r.path = "/login" →
      (mainRouter mws env fuel).serveHTTP r =
        mws.loggingMiddleware (mws.metricsMiddleware (mws.recoveryMiddleware
          (loginHandler env))) r) ∧
    (r.method = "POST" → r.path = "/multiply" →
      (mainRouter mws env fuel).serveHTTP r =
        mws.loggingMiddleware (mws.metricsMiddleware (mws.recoveryMiddleware
          (mws.authMiddleware (multiplyHandler env)))) r) ∧
    (r.method = "POST" → r.path = "/divide" →
      (mainRouter mws env fuel).serveHTTP r =
        mws.loggingMiddleware (mws.metricsMiddleware (mws.recoveryMiddleware
          (mws.authMiddleware (divideHandler env)))) r) ∧
    (r.method = "POST" → r.path = "/factorial" →
      (mainRouter mws env fuel).serveHTTP r =
        mws.loggingMiddleware (mws.metricsMiddleware (mws.recoveryMiddleware
          (mws.authMiddleware (factorialHandler env fuel)))) r) ∧
    (r.path = "/metrics" →
      (mainRouter mws env fuel).serveHTTP r =
        mws.loggingMiddleware (mws.metricsMiddleware (mws.recoveryMiddleware
          mws.promHandler)) r) ∧
    (∀ (inner : Handler F) (e : Exec F), inner r = some e → e.outcome = .panicked →
      recoveryMiddleware inner r =
        some ⟨.responded ⟨500, some [("error", .str "Internal Server Error")]⟩, e.trace⟩) ∧
    (∀ (inner : Handler F) (e : Exec F), recoveryMiddleware inner r = some e →
      e.outcome ≠ .panicked) := by
  refine ⟨serveHTTP_login mws env fuel r, serveHTTP_multiply mws env fuel r,
    serveHTTP_divide mws env fuel r, serveHTTP_factorial mws env fuel r,
    serveHTTP_metrics mws env fuel r, ?_, ?_⟩
  · intro inner e he hpanic
    simp [recoveryMiddleware, he, hpanic, respondWithError,
      respondWithJSON, jsonEncode, Value.encodable,
      StatusInternalServerError]
  · intro inner e he
    unfold recoveryMiddleware at he
    cases hi : inner r with
    | none => simp [hi] at he
    | some e' =>
      cases ho : e'.outcome with
      | panicked =>
        simp [hi, ho] at he
        subst he
        simp
      | responded resp =>
        simp [hi, ho] at he
        subst he
        simp [ho]

theorem main_chain_order_and_recovery_witness :
    (mainRouter
        { specMiddlewares (demoEnv (some (3, 4)) none none) with
          authMiddleware := failingStage }
        (demoEnv (some (3, 4)) none none) 0).serveHTTP
        ⟨"POST", "/multiply", none, "", none⟩ =
      loggingMiddleware (metricsMiddleware (recoveryMiddleware
        (failingStage (multiplyHandler (demoEnv (some (3, 4)) none none)))))
        ⟨"POST", "/multiply", none, "", none⟩ ∧
    recoveryMiddleware (failingStage (multiplyHandler (demoEnv (some (3, 4)) none none)))
        ⟨"POST", "/multiply", none, "", none⟩ =
      some ⟨.responded ⟨500, some [("error", .str "Internal Server Error")]⟩,
        [.insertOne ⟨"multiply", [.float 3, .float 4, .float (multiply exactOps 3 4)],
          1700000000123456789⟩]⟩ :=
  ⟨(main_chain_order_and_recovery
      { specMiddlewares (demoEnv (some (3, 4)) none none) with authMiddleware := failingStage }
      (demoEnv (some (3, 4)) none none) 0 ⟨"POST", "/multiply", none, "", none⟩).2.1 rfl rfl,
   (main_chain_order_and_recovery
      (specMiddlewares (demoEnv (some (3, 4)) none none))
      (demoEnv (some (3, 4)) none none) 0 ⟨"POST", "/multiply", none, "", none⟩).2.2.2.2.2.1
      (failingStage (multiplyHandler (demoEnv (some (3, 4)) none none)))
      ⟨.panicked, [.insertOne ⟨"multiply", [.float 3, .float 4, .float (multiply exactOps 3 4)],
          1700000000123456789⟩]⟩
      (by rfl) rfl⟩

/-! ## C8: audit documents and success -/

theorem auditRecords_logOperation {F : Type} (env : Env F) (operation : String)
    (operands : List (Value F)) (o : Outcome F) :
    (auditRecords ⟨o, logOperation env operation operands⟩).map (fun doc => doc.operation) =
      [operation] := by
  by_cases h : env.insertOne ⟨operation, operands, env.now⟩ = true <;>
    simp [logOperation, auditRecords, h]

/-- C8: each of the multiply and divide handlers returns for every request, and the
factorial handler returns whenever decoding fails, `N < 0`, or `0 <= N < maxInt` with
enough fuel. Every execution either succeeded (200) and handed exactly one document
naming the operation to the audit store, or failed validation (400) and handed it
none; success is exactly: decodable body (multiply), decodable body with non-zero
divisor (divide), decodable body with `N >= 0` (factorial). -/
theorem audit_record_iff_computation_succeeded {F : Type} (env : Env F) (fuel : Nat)
    (r : Request) :
    (∃ e, multiplyHandler env r = some e ∧ AuditedIffSucceeded "multiply" e ∧
      (e.status = some StatusOK ↔ ∃ a b, env.decodeAB r.body = some (a, b))) ∧
    (∃ e, divideHandler env r = some e ∧ AuditedIffSucceeded "divide" e ∧
      (e.status = some StatusOK ↔
        ∃ a b, env.decodeAB r.body = some (a, b) ∧ env.ops.eqZero b = false)) ∧
    (∀ e, factorialHandler env fuel r = some e →
      AuditedIffSucceeded "factorial" e ∧
      (e.status = some StatusOK ↔ ∃ n, env.decodeN r.body = some n ∧ 0 ≤ n)) ∧
    ((env.decodeN r.body = none ∨
        ∃ n, env.decodeN r.body = some n ∧ (n < 0 ∨ (n < maxInt ∧ n < (fuel : Int)))) →
      ∃ e, factorialHandler env fuel r = some e) := by
  refine ⟨?_, ?_, ?_, ?_⟩
  · cases hd : env.decodeAB r.body with
    | none =>
      simp only [multiplyHandler, hd]
      refine ⟨_, rfl, Or.inr ⟨rfl, rfl⟩, ?_⟩
      simp [Exec.status, respondWithError,
        respondWithJSON, jsonEncode, Value.encodable, StatusOK, StatusBadRequest]
    | some ab =>
      obtain ⟨a, b⟩ := ab
      simp only [multiplyHandler, hd]
      refine ⟨_, rfl, Or.inl ⟨rfl, auditRecords_logOperation _ _ _ _⟩, ?_⟩
      simp [Exec.status, respondWithJSON, jsonEncode, Value.encodable]
  · cases hd : env.decodeAB r.body with
    | none =>
      simp only [divideHandler, hd]
      refine ⟨_, rfl, Or.inr ⟨rfl, rfl⟩, ?_⟩
      simp [Exec.status, respondWithError,
        respondWithJSON, jsonEncode, Value.encodable, StatusOK, StatusBadRequest]
    | some ab =>
      obtain ⟨a, b⟩ := ab
      cases hz : env.ops.eqZero b with
      | true =>
        simp only [divideHandler, hd, divide, hz, if_true]
        refine ⟨_, rfl, Or.inr ⟨rfl, rfl⟩, ?_⟩
        simp [Exec.status, respondWithError,
          respondWithJSON, jsonEncode, Value.encodable, StatusOK, StatusBadRequest, hz]
      | false =>
        simp only [divideHandler, hd, divide, hz, Bool.false_eq_true, if_false]
        exact ⟨_, rfl, Or.inl ⟨rfl, auditRecords_logOperation _ _ _ _⟩,
          fun _ => ⟨a, b, rfl, hz⟩, fun _ => rfl⟩
  · intro e he
    unfold factorialHandler at he
    cases hd : env.decodeN r.body with
    | none =>
      simp only [hd, Option.some.injEq] at he
      subst he
      refine ⟨Or.inr ⟨rfl, rfl⟩, ?_⟩
      simp [Exec.status, respondWithError,
        respondWithJSON, jsonEncode, Value.encodable, StatusOK, StatusBadRequest]
    | some n =>
      by_cases hneg : n < 0
      · simp only [hd, hneg, if_true, Option.some.injEq] at he
        subst he
        refine ⟨Or.inr ⟨rfl, rfl⟩, ?_⟩
        simp only [Exec.status, respondWithError,
          respondWithJSON, jsonEncode, Value.encodable, StatusOK, StatusBadRequest]
        constructor
        · intro h; simp at h
        · rintro ⟨m, hm, hm0⟩
          simp only [Option.some.injEq] at hm
          omega
      · cases hf : factorial fuel n with
        | none => simp [hd, hneg, hf] at he
        | some result =>
          simp only [hd, hneg, if_false, hf, Option.some.injEq] at he
          subst he
          refine ⟨Or.inl ⟨rfl, auditRecords_logOperation _ _ _ _⟩, ?_⟩
          simp only [Exec.status, respondWithJSON, jsonEncode, Value.encodable, true_iff]
          exact ⟨n, rfl, by omega⟩
  · rintro (hd | ⟨n, hd, hneg | ⟨hmax, hfuel⟩⟩)
    · exact ⟨_, by simp only [factorialHandler, hd]; rfl⟩
    · exact ⟨_, by simp only [factorialHandler, hd, hneg, if_true]; rfl⟩
    · by_cases hneg : n < 0
      · exact ⟨_, by simp only [factorialHandler, hd, hneg, if_true]; rfl⟩
      · obtain ⟨m, rfl⟩ : ∃ m : Nat, n = (m : Int) := ⟨n.toNat, by omega⟩
        have hf := factorial_exact_below_maxInt m hmax fuel (by omega)
        exact ⟨_, by simp only [factorialHandler, hd, hneg, if_false, hf]; rfl⟩

theorem audit_record_iff_computation_succeeded_witness :
    (∃ e, factorialHandler (demoEnv none (some 5) none) 6
        ⟨"POST", "/factorial", none, "", none⟩ = some e) ∧
    AuditedIffSucceeded "factorial"
      (⟨.responded ⟨200, some [("result", .str "120")]⟩,
        [.insertOne ⟨"factorial", [.int 5, .null, .str "120"], 1700000000123456789⟩]⟩ :
        Exec Rat) :=
  ⟨(audit_record_iff_computation_succeeded (demoEnv none (some 5) none) 6
      ⟨"POST", "/factorial", none, "", none⟩).2.2.2
      (Or.inr ⟨5, rfl, Or.inr ⟨by decide, by decide⟩⟩),
   ((audit_record_iff_computation_succeeded (demoEnv none (some 5) none) 6
      ⟨"POST", "/factorial", none, "", none⟩).2.2.1 _ (by decide)).1⟩

/-! ## C9: the response does not depend on the audit write -/

/-- C9: for each of the multiply, divide and factorial handlers and every request,
the outcome (status code and body, or the absence of a response) is the same
whatever `InsertOne` returns: replacing the store by any other store leaves it
unchanged. -/
theorem response_independent_of_audit_write {F : Type} (env : Env F)
    (ins ins' : OperationRecord F → Bool) (fuel : Nat) (r : Request) :
    (multiplyHandler { env with insertOne := ins } r).map Exec.outcome =
      (multiplyHandler { env with insertOne := ins' } r).map Exec.outcome ∧
    (divideHandler { env with insertOne := ins } r).map Exec.outcome =
      (divideHandler { env with insertOne := ins' } r).map Exec.outcome ∧
    (factorialHandler { env with insertOne := ins } fuel r).map Exec.outcome =
      (factorialHandler { env with insertOne := ins' } fuel r).map Exec.outcome := by
  refine ⟨?_, ?_, ?_⟩
  · unfold multiplyHandler
    cases env.decodeAB r.body <;> rfl
  · unfold divideHandler
    cases hd : env.decodeAB r.body with
    | none => rfl
    | some ab =>
      obtain ⟨a, b⟩ := ab
      simp only [divide]
      cases env.ops.eqZero b <;> rfl
  · unfold factorialHandler
    cases hd : env.decodeN r.body with
    | none => rfl
    | some n =>
      simp only
      by_cases hneg : n < 0
      · simp only [hneg, if_true, Option.map]
      · simp only [hneg, if_false]
        cases factorial fuel n <;> rfl

/-! ## C10: the token payload -/

theorem timeUnix_add_day (t : Int) : timeUnix (timeAdd t (Hour * 24)) = timeUnix t + 86400 := by
  unfold timeUnix timeAdd Hour
  omega

/-- C10: the claims built at login for issue time `t` and username `u` are exactly
`username = u` and `exp = Unix(t) + 86400`, nothing else; for an accepted pair the
handler signs exactly these claims, with `t = time.Now()`. -/
theorem login_token_payload {F : Type} (env : Env F) (t : Int) (u : String) :
    loginClaims t u = [("username", .str u), ("exp", .int (timeUnix t + 86400))] ∧
    (∀ (r : Request) (p : String), env.decodeCreds r.body = some (u, p) →
      u = "admin" ∧ p = "password" →
      loginHandler env r =
        match env.signedString
            [("username", .str u), ("exp", .int (timeUnix env.now + 86400))] env.jwtSecret with
        | none =>
          some ⟨.responded ⟨500, some [("error", .str "Failed to generate token")]⟩, []⟩
        | some tokenString => some ⟨.responded ⟨200, some [("token", .str tokenString)]⟩, []⟩) := by
  have hc : ∀ t' : Int,
      loginClaims t' u = [("username", .str u), ("exp", .int (timeUnix t' + 86400))] := by
    intro t'
    simp [loginClaims, timeUnix_add_day]
  refine ⟨hc t, ?_⟩
  intro r p hd hacc
  obtain ⟨hu, hp⟩ := hacc
  subst hu hp
  simp only [loginHandler, hd, hc]
  cases env.signedString [("username", .str "admin"), ("exp", .int (timeUnix env.now + 86400))]
    env.jwtSecret <;>
    simp [respondWithError,
      respondWithJSON, jsonEncode, Value.encodable, StatusInternalServerError, StatusOK]

theorem login_token_payload_witness :
    loginHandler (demoEnv none none (some ("admin", "password")))
        ⟨"POST", "/login", none, "", none⟩ =
      match (demoEnv none none (some ("admin", "password"))).signedString
          [("username", .str "admin"),
           ("exp", .int (timeUnix (demoEnv none none (some ("admin", "password"))).now + 86400))]
          (demoEnv none none (some ("admin", "password"))).jwtSecret with
      | none => some ⟨.responded ⟨500, some [("error", .str "Failed to generate token")]⟩, []⟩
      | some tokenString => some ⟨.responded ⟨200, some [("token", .str tokenString)]⟩, []⟩ :=
  (login_token_payload (demoEnv none none (some ("admin", "password"))) 0 "admin").2
    ⟨"POST", "/login", none, "", none⟩ "password" rfl ⟨rfl, rfl⟩

end MathAPI
